import Mathlib

/-!
Verification of the MCP protocol client and schema-discovery cache of the
langgraph customer-health agent.  The Python sources `mcp_tools.py`,
`mcp_client_production.py` and `schema_cache.py` are shallowly embedded:
JSON values become an inductive type, Python strings become `List Char`
(or Lean `String`) with the relevant `str` methods reimplemented, raising
an exception becomes returning `Except PyErr`, and the mutable module /
instance state (request counter, initialized flag, call log) is threaded
explicitly through an `MCPState` record.  The HTTP layer is an oracle
(`Env.respond`) giving, per request, either a transport exception or the
decoded JSON-RPC response object; the SSE body decoding itself is embedded
separately as `parseSse` / `parseSseProd`.
-/

/-- JSON values as produced by Python's `json.loads`; numbers are modelled
as integers (no claim exercises floats). -/
inductive Json where
  | str (s : String)
  | num (n : Int)
  | bool (b : Bool)
  | null
  | arr (xs : List Json)
  | obj (fs : List (String × Json))

instance : Inhabited Json := ⟨Json.null⟩

/-- Field lookup on a decoded JSON object (Python `dict.__getitem__` /
`dict.get`, first binding wins; `json.loads` never produces duplicate
keys). -/
def Json.getField : Json → String → Option Json
  | .obj fs, k => fs.lookup k
  | _, _ => none

/-- Python truthiness of a JSON value: `None`, `False`, `0`, `""`, `[]`
and `\x7b\x7d` are falsy, everything else truthy. -/
def Json.truthy : Json → Bool
  | .null => false
  | .bool b => b
  | .num n => n != 0
  | .str s => !s.isEmpty
  | .arr xs => !xs.isEmpty
  | .obj fs => !fs.isEmpty

/-- A raised Python exception: class name and message. -/
structure PyErr where
  cls : String
  msg : String
deriving DecidableEq, Repr

mutual

/-- Python `repr` of a JSON value (element position inside containers). -/
def pyRepr : Json → String
  | .null => "None"
  | .bool true => "True"
  | .bool false => "False"
  | .num n => toString n
  | .str s => "\x27" ++ s ++ "\x27"
  | .arr xs => "[" ++ pyReprList xs ++ "]"
  | .obj fs => "\x7b" ++ pyReprFields fs ++ "\x7d"

/-- Comma-joined `repr`s of the elements of a Python list. -/
def pyReprList : List Json → String
  | [] => ""
  | [x] => pyRepr x
  | x :: xs => pyRepr x ++ ", " ++ pyReprList xs

/-- Comma-joined `repr`s of the items of a Python dict. -/
def pyReprFields : List (String × Json) → String
  | [] => ""
  | [(k, v)] => "\x27" ++ k ++ "\x27: " ++ pyRepr v
  | (k, v) :: fs => "\x27" ++ k ++ "\x27: " ++ pyRepr v ++ ", " ++ pyReprFields fs

end

/-- Python `str` of a JSON value (top level: strings are shown bare). -/
def pyStr : Json → String
  | .str s => s
  | j => pyRepr j

/-- Characters stripped by Python's `str.strip()`. -/
def pySpace (c : Char) : Bool :=
  c = ' ' || c = '\t' || c = '\n' || c = '\r' || c = Char.ofNat 11 || c = Char.ofNat 12

/-- Drop the longest suffix whose characters satisfy `p`. -/
def dropTrail (p : Char → Bool) (l : List Char) : List Char :=
  (l.reverse.dropWhile p).reverse

/-- Strip the characters satisfying `p` from both ends (Python
`str.strip(chars)`). -/
def stripSet (p : Char → Bool) (l : List Char) : List Char :=
  dropTrail p (l.dropWhile p)

/-- Python `str.strip()` (no argument): strip whitespace from both ends. -/
def pyStrip (l : List Char) : List Char := stripSet pySpace l

/-- Python `str.startswith(p)` on character lists. -/
def startsWithL : List Char → List Char → Bool
  | [], _ => true
  | _ :: _, [] => false
  | a :: ps, b :: ss => a == b && startsWithL ps ss

/-- Python `text.split("\n")` on character lists. -/
def splitNl : List Char → List (List Char)
  | [] => [[]]
  | c :: rest =>
    if c = '\n' then [] :: splitNl rest
    else
      match splitNl rest with
      | [] => [[c]]
      | l :: ls => (c :: l) :: ls

/-- The six characters of the SSE marker `"data: "`. -/
def dataMarker : List Char := ['d', 'a', 't', 'a', ':', ' ']

/-- Key constant: the `error` field of a JSON-RPC response. -/
def kError : String := "error"

/-- Key constant: the `result` field of a JSON-RPC response. -/
def kResult : String := "result"

/-- Key constant: the `message` field of a JSON-RPC error object. -/
def kMessage : String := "message"

/-- Default remote-error message used by `_call_mcp`. -/
def kUnknown : String := "Unknown"

/-- Default remote-error message used by `_make_request`. -/
def kUnknownError : String := "Unknown error"

/-- Exception class raised by `_call_mcp` on a remote error. -/
def kRuntimeError : String := "RuntimeError"

/-- Exception class raised by `_make_request` on a remote error. -/
def kException : String := "Exception"

/-- Exception class raised by Python when `.get` is called on a non-dict. -/
def kAttributeError : String := "AttributeError"

/-- Message of the modelled `AttributeError`. -/
def kNoGet : String := "object has no attribute get"

/-- Exception class raised by the `requests` library on transport failure. -/
def kRequestException : String := "RequestException"

/-- Exception class raised by Python on iterating a non-iterable. -/
def kTypeError : String := "TypeError"

/-- Message of the modelled `TypeError`. -/
def kNotIterable : String := "object is not iterable"

/-- Key constant: the `content` field of a tool response envelope. -/
def kContent : String := "content"

/-- Key constant: the `type` field of a content entry. -/
def kType : String := "type"

/-- Value and key constant: the string `text`. -/
def kText : String := "text"

/-- Key constant: the `results` field of a queryData payload. -/
def kResults : String := "results"

/-- Key constant: the `schema` field of a result set. -/
def kSchema : String := "schema"

/-- Key constant: the `rows` field of a result set. -/
def kRows : String := "rows"

/-- Key constant: the `columnName` field of a column descriptor. -/
def kColumnName : String := "columnName"

/-- Key constant: the `name` field of a tools/call parameter object. -/
def kName : String := "name"

/-- Key constant: the `arguments` field of a tools/call parameter object. -/
def kArguments : String := "arguments"

/-- Key constant: the `query` argument of the queryData tool. -/
def kQuery : String := "query"

/-- The JSON-RPC method string `tools/call`. -/
def kToolsCall : String := "tools/call"

/-- The JSON-RPC method string `initialize`. -/
def kInitialize : String := "initialize"

/-- The inner loop of `_call_mcp`'s SSE parsing (mcp_tools.py lines 50-52):
scan the lines, remembering the stripped payload of the last line that
starts with the SSE marker. -/
def lastDataPayload (lines : List (List Char)) : List Char :=
  lines.foldl
    (fun acc line =>
      if startsWithL dataMarker line then pyStrip (line.drop 6) else acc)
    []

/-- Selection of the JSON text from an HTTP response body in
`_call_mcp` (mcp_tools.py lines 48-54): strip the body, take the stripped
payload of the last `data: ` line, and fall back to the whole stripped
body when no such payload was found. -/
def parseSse (text : List Char) : List Char :=
  let t := pyStrip text
  let jsonStr := lastDataPayload (splitNl t)
  if jsonStr.isEmpty then t else jsonStr

/-- Selection of the JSON text from an HTTP response body in
`_make_request` (mcp_client_production.py lines 62-76): strip the body,
remove one leading `data: ` marker (the guarded
`content.replace("data: ", "", 1)` removes exactly the prefix) and strip
again, then scan the lines keeping the stripped payload of the last
`data: ` line, or the first non-blank line when no `data: ` line was seen
yet. -/
def parseSseProd (text : List Char) : List Char :=
  let c0 := pyStrip text
  let c := if startsWithL dataMarker c0 then pyStrip (c0.drop 6) else c0
  (splitNl c).foldl
    (fun acc line =>
      if startsWithL dataMarker line then pyStrip (line.drop 6)
      else if !(pyStrip line).isEmpty && acc.isEmpty then pyStrip line
      else acc)
    []

/-- Post-decode step of `_call_mcp` (mcp_tools.py lines 56-61), applied to
the fields of the decoded JSON-RPC response object: a truthy `error` field
raises `RuntimeError` with the remote message (default `Unknown`; a truthy
non-dict `error` makes Python's `.get` raise `AttributeError`), otherwise
the `result` field is returned, `\x7b\x7d` when absent. -/
def callMcpPostDecode (fs : List (String × Json)) : Except PyErr Json :=
  match fs.lookup kError with
  | some e =>
    if e.truthy then
      match e with
      | .obj efs =>
        .error ⟨kRuntimeError,
          "MCP error: " ++ pyStr ((efs.lookup kMessage).getD (.str kUnknown))⟩
      | _ => .error ⟨kAttributeError, kNoGet⟩
    else .ok ((fs.lookup kResult).getD (.obj []))
  | none => .ok ((fs.lookup kResult).getD (.obj []))

/-- Post-decode step of `_make_request` (mcp_client_production.py lines
80-83): a truthy `error` field raises `Exception` with the remote message
(default `Unknown error`), otherwise the `result` field is returned via
`result.get("result")`, i.e. `None` when absent. -/
def makeRequestPostDecode (fs : List (String × Json)) : Except PyErr Json :=
  match fs.lookup kError with
  | some e =>
    if e.truthy then
      match e with
      | .obj efs =>
        .error ⟨kException,
          "MCP Error: " ++ pyStr ((efs.lookup kMessage).getD (.str kUnknownError))⟩
      | _ => .error ⟨kAttributeError, kNoGet⟩
    else .ok ((fs.lookup kResult).getD .null)
  | none => .ok ((fs.lookup kResult).getD .null)

/-- JSON whitespace (the four characters `json.loads` skips). -/
def jsonWs (c : Char) : Bool :=
  c = ' ' || c = '\t' || c = '\n' || c = '\r'

/-- Skip JSON whitespace. -/
def skipWs (cs : List Char) : List Char := cs.dropWhile jsonWs

/-- Decode a single-character JSON string escape (`\uXXXX` is outside the
modelled subset). -/
def escChar (c : Char) : Option Char :=
  if c = 'n' then some '\n'
  else if c = 't' then some '\t'
  else if c = 'r' then some '\r'
  else if c = '"' then some '"'
  else if c = '\\' then some '\\'
  else if c = '/' then some '/'
  else if c = 'b' then some (Char.ofNat 8)
  else if c = 'f' then some (Char.ofNat 12)
  else none

/-- Parse the body of a JSON string after the opening quote, returning the
decoded characters and the input after the closing quote. -/
def parseStrBody : Nat → List Char → Option (List Char × List Char)
  | 0, _ => none
  | _ + 1, [] => none
  | f + 1, c :: rest =>
    if c = '"' then some ([], rest)
    else if c = '\\' then
      match rest with
      | [] => none
      | e :: rest2 =>
        match escChar e with
        | none => none
        | some ch => (parseStrBody f rest2).map (fun p => (ch :: p.1, p.2))
    else (parseStrBody f rest).map (fun p => (c :: p.1, p.2))

/-- Parse one or more decimal digits into a natural number. -/
def parseDigits : List Char → Option (Nat × List Char)
  | cs =>
    let ds := cs.takeWhile Char.isDigit
    if ds.isEmpty then none
    else some (ds.foldl (fun n c => n * 10 + (c.toNat - 48)) 0, cs.dropWhile Char.isDigit)

mutual

/-- Parse one JSON value (integer numbers only), consuming leading
whitespace; fuel bounds the recursion depth. -/
def parseVal : Nat → List Char → Option (Json × List Char)
  | 0, _ => none
  | f + 1, cs =>
    match skipWs cs with
    | [] => none
    | c :: rest =>
      if c = '"' then (parseStrBody (f + 1) rest).map (fun p => (.str (String.mk p.1), p.2))
      else if c = '\x7b' then parseObjItems f (skipWs rest) true
      else if c = '[' then parseArrItems f (skipWs rest) true
      else if c = 't' then
        if startsWithL ['r', 'u', 'e'] rest then some (.bool true, rest.drop 3) else none
      else if c = 'f' then
        if startsWithL ['a', 'l', 's', 'e'] rest then some (.bool false, rest.drop 4) else none
      else if c = 'n' then
        if startsWithL ['u', 'l', 'l'] rest then some (.null, rest.drop 3) else none
      else if c = '-' then (parseDigits rest).map (fun p => (.num (-(p.1 : Int)), p.2))
      else if c.isDigit then (parseDigits (c :: rest)).map (fun p => (.num (p.1 : Int), p.2))
      else none

/-- Parse the items of a JSON array after `[` (or after a comma);
`first` is true before the first item so that `]` may close an empty
array. -/
def parseArrItems : Nat → List Char → Bool → Option (Json × List Char)
  | 0, _, _ => none
  | _ + 1, [], _ => none
  | f + 1, c :: rest, first =>
    if first && c = ']' then some (.arr [], rest)
    else
      match parseVal f (c :: rest) with
      | none => none
      | some (v, after) =>
        match skipWs after with
        | ']' :: rest2 => some (.arr [v], rest2)
        | ',' :: rest2 =>
          match parseArrItems f (skipWs rest2) false with
          | some (.arr vs, rest3) => some (.arr (v :: vs), rest3)
          | _ => none
        | _ => none

/-- Parse the items of a JSON object after `\x7b` (or after a comma). -/
def parseObjItems : Nat → List Char → Bool → Option (Json × List Char)
  | 0, _, _ => none
  | _ + 1, [], _ => none
  | f + 1, c :: rest, first =>
    if first && c = '\x7d' then some (.obj [], rest)
    else if c = '"' then
      match parseStrBody (f + 1) rest with
      | none => none
      | some (key, afterKey) =>
        match skipWs afterKey with
        | ':' :: afterColon =>
          match parseVal f afterColon with
          | none => none
          | some (v, after) =>
            match skipWs after with
            | '\x7d' :: rest2 => some (.obj [(String.mk key, v)], rest2)
            | ',' :: rest2 =>
              match parseObjItems f (skipWs rest2) false with
              | some (.obj fs, rest3) => some (.obj ((String.mk key, v) :: fs), rest3)
              | _ => none
            | _ => none
        | _ => none
    else none

end

/-- Python `json.loads` on the modelled subset: parse one value and
require only whitespace to follow. -/
def parseJson (cs : List Char) : Option Json :=
  match parseVal (4 * cs.length + 8) cs with
  | none => none
  | some (v, rest) => if (skipWs rest).isEmpty then some v else none

/-- The HTTP layer as an oracle: given the request id, method and params
of an outbound JSON-RPC call it yields either a transport exception
(network failure, non-2xx, timeout — what `requests` raises) or the
fields of the decoded JSON-RPC response object.  The SSE body decoding
that produces that object is embedded separately as `parseSse` /
`parseSseProd`. -/
structure Env where
  respond : Nat → String → Json → Except PyErr (List (String × Json))

/-- The mutable client state: the request-id counter and initialized flag
(module globals in mcp_tools.py, instance fields in
mcp_client_production.py) plus a log of the methods sent, recording each
outbound RPC. -/
structure MCPState where
  requestId : Nat
  initialized : Bool
  log : List String

/-- The fresh client state (construction default / module import). -/
def initState : MCPState := ⟨0, false, []⟩

/-- `_call_mcp(method, params)` (mcp_tools.py lines 31-61): increment the
request id, send, and apply the post-decode step; transport exceptions
propagate unwrapped (no try/except). -/
def callMcp (env : Env) (st : MCPState) (method : String) (params : Json) :
    Except PyErr Json × MCPState :=
  let st1 : MCPState :=
    { st with requestId := st.requestId + 1, log := st.log ++ [method] }
  match env.respond st1.requestId method params with
  | .error e => (.error e, st1)
  | .ok fs => (callMcpPostDecode fs, st1)

/-- `_make_request(method, params)` (mcp_client_production.py lines
35-88): same shape, but a transport exception is re-raised as
`Exception("MCP request failed: ...")`. -/
def makeRequest (env : Env) (st : MCPState) (method : String) (params : Json) :
    Except PyErr Json × MCPState :=
  let st1 : MCPState :=
    { st with requestId := st.requestId + 1, log := st.log ++ [method] }
  match env.respond st1.requestId method params with
  | .error e => (.error ⟨kException, "MCP request failed: " ++ e.msg⟩, st1)
  | .ok fs => (makeRequestPostDecode fs, st1)

/-- The params of the `initialize` RPC sent by mcp_tools.py lines 77-81. -/
def initParams : Json :=
  .obj [("protocolVersion", .str ("2024-11-05")),
        ("capabilities", .obj []),
        ("clientInfo", .obj [(kName, .str ("LangGraphHealthAgent")),
                             ("version", .str ("2.0"))])]

/-- The params of the `initialize` RPC sent by mcp_client_production.py
lines 93-100. -/
def initParamsProd : Json :=
  .obj [("protocolVersion", .str ("2024-11-05")),
        ("capabilities", .obj []),
        ("clientInfo", .obj [(kName, .str ("LangGraph Customer Health Agent")),
                             ("version", .str ("1.0.0"))])]

/-- `_ensure_initialized()` (mcp_tools.py lines 73-83): when the flag is
unset, send `initialize`; on success set the flag, on failure leave it
unset and let the exception propagate.  When the flag is set, do
nothing. -/
def ensureInitialized (env : Env) (st : MCPState) :
    Except PyErr Unit × MCPState :=
  if st.initialized then (.ok (), st)
  else
    match callMcp env st kInitialize initParams with
    | (.ok _, st1) => (.ok (), { st1 with initialized := true })
    | (.error e, st1) => (.error e, st1)

/-- `MCPClientProduction.initialize()` (mcp_client_production.py lines
90-106): send `initialize`; on success set the flag and return `True`; on
failure swallow the exception (print) and return `False`. -/
def initializeProd (env : Env) (st : MCPState) : Bool × MCPState :=
  match makeRequest env st kInitialize initParamsProd with
  | (.ok _, st1) => (true, { st1 with initialized := true })
  | (.error _, st1) => (false, st1)

/-- The params object of a `tools/call` request. -/
def toolCallParams (name : String) (args : Json) : Json :=
  .obj [(kName, .str name), (kArguments, args)]

/-- `MCPClientProduction.call_tool(name, args)` (mcp_client_production.py
lines 119-130): send `tools/call`; any exception is caught (printed) and
`None` is returned — the translation of the `try/except: return None`
into the `Except` embedding, so the function is total with value
`Json.null` on failure. -/
def callToolProd (env : Env) (st : MCPState) (name : String) (args : Json) :
    Except PyErr Json × MCPState :=
  match makeRequest env st kToolsCall (toolCallParams name args) with
  | (.ok r, st1) => (.ok r, st1)
  | (.error _, st1) => (.ok .null, st1)

/-- Python iteration over a JSON value: lists yield their elements,
strings their characters (as one-character strings), dicts their keys;
anything else raises `TypeError`. -/
def pyIter : Json → Except PyErr (List Json)
  | .arr xs => .ok xs
  | .str s => .ok (s.toList.map (fun c => .str (String.mk [c])))
  | .obj fs => .ok (fs.map (fun kv => .str kv.1))
  | _ => .error ⟨kTypeError, kNotIterable⟩

/-- The shared content-entry loop of `_extract_text` (mcp_tools.py lines
67-69) and of the inline extraction in `query_data`
(mcp_client_production.py lines 153-157): return the `text` field
(default `""`) of the first entry whose `type` equals `"text"`; `none`
when no entry matches; a non-dict entry makes `.get` raise
`AttributeError`. -/
def firstTextEntry : List Json → Except PyErr (Option Json)
  | [] => .ok none
  | item :: rest =>
    match item with
    | .obj fs =>
      match fs.lookup kType with
      | some (.str t) =>
        if t = kText then .ok (some ((fs.lookup kText).getD (.str (""))))
        else firstTextEntry rest
      | _ => firstTextEntry rest
    | _ => .error ⟨kAttributeError, kNoGet⟩

/-- `_extract_text(result)` (mcp_tools.py lines 64-70): the first
text-typed content entry's `text` value, falling back to `str(result)`
when `result` is not a dict, has no `content` field, or no entry
matches. -/
def extractText (result : Json) : Except PyErr Json :=
  match result with
  | .obj fs =>
    match fs.lookup kContent with
    | some c =>
      match pyIter c with
      | .error e => .error e
      | .ok items =>
        match firstTextEntry items with
        | .error e => .error e
        | .ok (some t) => .ok t
        | .ok none => .ok (.str (pyStr result))
    | none => .ok (.str (pyStr result))
  | _ => .ok (.str (pyStr result))

/-- The inline text-content extraction of `query_data`
(mcp_client_production.py lines 152-157): same first-entry-wins loop, but
the fallback on every missing-shape path is the empty string, never
`str(result)`. -/
def prodTextContent (result : Json) : Except PyErr Json :=
  match result with
  | .obj fs =>
    match fs.lookup kContent with
    | some c =>
      match pyIter c with
      | .error e => .error e
      | .ok items =>
        match firstTextEntry items with
        | .error e => .error e
        | .ok (some t) => .ok t
        | .ok none => .ok (.str (""))
    | none => .ok (.str (""))
  | _ => .ok (.str (""))

/-- Column-name extraction (mcp_client_production.py line 182):
`[col.get("columnName") for col in schema]`, `None` when the key is
absent; a non-dict descriptor raises `AttributeError`. -/
def buildColumnNames : List Json → Except PyErr (List Json)
  | [] => .ok []
  | .obj fs :: rest =>
    (buildColumnNames rest).map (fun ns => ((fs.lookup kColumnName).getD .null) :: ns)
  | _ :: _ => .error ⟨kAttributeError, kNoGet⟩

/-- Row-to-record conversion (mcp_client_production.py lines 185-188):
each row is paired positionally with the column names by `zip`, which
stops at the shorter of the two sequences.  Records are kept as the
ordered pair list produced by the zip (Python's `dict` constructor would
additionally collapse duplicate column names; no claim exercises
duplicates). -/
def rowsToRecords (names : List Json) : List Json → Except PyErr (List (List (Json × Json)))
  | [] => .ok []
  | r :: rest =>
    match pyIter r with
    | .error e => .error e
    | .ok vs => (rowsToRecords names rest).map (fun recs => (names.zip vs) :: recs)

/-- The record-extraction pipeline of `query_data`
(mcp_client_production.py lines 148-194), applied to the `call_tool`
result: every failure path — falsy result, no text content, JSON parse
failure, absent or falsy `results`, empty `schema` or `rows`, or any
exception raised by a malformed shape (caught by the enclosing
`try/except`) — yields the empty list. -/
def extractRecords (result : Json) : List (List (Json × Json)) :=
  if !result.truthy then []
  else
    match prodTextContent result with
    | .error _ => []
    | .ok t =>
      if !t.truthy then []
      else
        match t with
        | .str s =>
          match parseJson s.toList with
          | none => []
          | some d =>
            match d with
            | .obj dfs =>
              match dfs.lookup kResults with
              | none => []
              | some rs =>
                if !rs.truthy then []
                else
                  match rs with
                  | .arr (r0 :: _) =>
                    match r0 with
                    | .obj rfs =>
                      let schema := (rfs.lookup kSchema).getD (.arr [])
                      let rows := (rfs.lookup kRows).getD (.arr [])
                      if !schema.truthy || !rows.truthy then []
                      else
                        match schema with
                        | .arr cols =>
                          match buildColumnNames cols with
                          | .error _ => []
                          | .ok names =>
                            match pyIter rows with
                            | .error _ => []
                            | .ok rowList =>
                              match rowsToRecords names rowList with
                              | .error _ => []
                              | .ok recs => recs
                        | _ => []
                    | _ => []
                  | _ => []
            | _ => []
        | _ => []

/-- Tool name constant `queryData`. -/
def kQueryData : String := "queryData"

/-- Tool name constant `getCatalogs`. -/
def kGetCatalogs : String := "getCatalogs"

/-- Tool name constant `getSchemas`. -/
def kGetSchemas : String := "getSchemas"

/-- Tool name constant `getTables`. -/
def kGetTables : String := "getTables"

/-- Argument key constant `catalogName`. -/
def kCatalogName : String := "catalogName"

/-- Argument key constant `schemaName`. -/
def kSchemaName : String := "schemaName"

/-- The fixed `llmContext` argument sent by the production `query_data`
(mcp_client_production.py lines 141-145). -/
def llmContextVal : Json :=
  .obj [("provider", .str ("anthropic")),
        ("model", .str ("claude-opus-4-6")),
        ("reason", .str ("Query Salesforce data for customer health analysis"))]

/-- `MCPClientProduction.query_data(query)` (mcp_client_production.py
lines 132-194): call the queryData tool, then run the record-extraction
pipeline; the outer `try/except` returns `[]` on any exception. -/
def queryDataProd (env : Env) (st : MCPState) (q : String) :
    List (List (Json × Json)) × MCPState :=
  match callToolProd env st kQueryData
      (.obj [(kQuery, .str q), ("llmContext", llmContextVal)]) with
  | (.ok v, st1) => (extractRecords v, st1)
  | (.error _, st1) => ([], st1)

/-- `query_data(sql_query)` (mcp_tools.py lines 155-170): ensure the
session is initialized, send the queryData tool call, extract the text;
no exception is caught anywhere on this path. -/
def queryDataTool (env : Env) (st : MCPState) (q : String) :
    Except PyErr Json × MCPState :=
  match ensureInitialized env st with
  | (.error e, st1) => (.error e, st1)
  | (.ok _, st1) =>
    match callMcp env st1 kToolsCall
        (toolCallParams kQueryData (.obj [(kQuery, .str q)])) with
    | (.error e, st2) => (.error e, st2)
    | (.ok r, st2) =>
      match extractText r with
      | .error e => (.error e, st2)
      | .ok t => (.ok t, st2)

/-- The double-quote character, stripped by `.strip('"')`. -/
def isQuoteChar (c : Char) : Bool := c = '"'

/-- The comma character, stripped by `.strip(",")`. -/
def isCommaChar (c : Char) : Bool := c = ','

/-- Per-line cleanup of a catalog name (schema_cache.py line 64):
`line.strip().strip('"').strip(",")` — whitespace, then double quotes,
then commas, each stripped from both ends. -/
def cleanCatalogLine (l : List Char) : List Char :=
  stripSet isCommaChar (stripSet isQuoteChar (pyStrip l))

/-- The seven characters of the header marker `"catalog"`. -/
def headerMarker : List Char := ['c', 'a', 't', 'a', 'l', 'o', 'g']

/-- Catalog-name parsing (schema_cache.py lines 63-67): keep the lines of
the raw text that are non-blank after stripping and do not start with
`catalog`, and clean each kept line. -/
def parseCatalogNames (text : List Char) : List (List Char) :=
  ((splitNl text).filter
      (fun line => !(pyStrip line).isEmpty && !(startsWithL headerMarker line))).map
    cleanCatalogLine

/-- Modelled from the spec's words for claim C8 ("stripping surrounding
whitespace, double quotes, and trailing commas from each kept line"): the
described per-line cleanup, with commas removed from the trailing end
only. -/
def specCleanCatalogLine (l : List Char) : List Char :=
  dropTrail isCommaChar (stripSet isQuoteChar (pyStrip l))

/-- Modelled from the spec's words for claim C8: catalog-name parsing as
the claim describes it, using `specCleanCatalogLine`. -/
def specParseCatalogNames (text : List Char) : List (List Char) :=
  ((splitNl text).filter
      (fun line => !(pyStrip line).isEmpty && !(startsWithL headerMarker line))).map
    specCleanCatalogLine

/-- Per-line cleanup as amended for claim C8: strip whitespace from both
ends, then double quotes from both ends, then commas from both ends, each
pass removing the longest run of the given characters. -/
def amendedCleanCatalogLine (l : List Char) : List Char :=
  let a := dropTrail pySpace (l.dropWhile pySpace)
  let b := dropTrail isQuoteChar (a.dropWhile isQuoteChar)
  dropTrail isCommaChar (b.dropWhile isCommaChar)

/-- Catalog-name parsing as amended for claim C8. -/
def amendedParseCatalogNames (text : List Char) : List (List Char) :=
  ((splitNl text).filter
      (fun line => !(pyStrip line).isEmpty && !(startsWithL headerMarker line))).map
    amendedCleanCatalogLine

/-- One catalog entry of the cached schema (schema_cache.py lines 72-87):
the dead `schemas` dict (never populated) and the two raw text blobs,
kept as the JSON values `_extract_text` returned. -/
structure CatalogInfo where
  schemas : List (String × Json)
  schemasRaw : Json
  tablesRaw : Json

/-- The in-memory schema value built by `discover_and_cache`
(schema_cache.py lines 50-89): discovery timestamp, the optional raw
getCatalogs blob (absent when a catalog override is forced), and the
insertion-ordered catalog dict. -/
structure SchemaData where
  discoveredAt : Int
  catalogsRaw : Option Json
  catalogs : List (String × CatalogInfo)

/-- Python dict assignment `d[k] = v` on the insertion-ordered catalogs
dict: overwrite in place when the key exists, else append. -/
def dictInsert (d : List (String × CatalogInfo)) (k : String) (v : CatalogInfo) :
    List (String × CatalogInfo) :=
  if d.any (fun p => p.1 == k) then
    d.map (fun p => if p.1 == k then (k, v) else p)
  else d ++ [(k, v)]

/-- The per-catalog loop of `discover_and_cache` (schema_cache.py lines
69-89): skip falsy names, call getSchemas then getTables for each
catalog, accumulating in memory; the first exception propagates. -/
def sweepLoop (env : Env) :
    List String → MCPState → List (String × CatalogInfo) →
    Except PyErr (List (String × CatalogInfo)) × MCPState
  | [], st, acc => (.ok acc, st)
  | cat :: rest, st, acc =>
    if cat.isEmpty then sweepLoop env rest st acc
    else
      match callMcp env st kToolsCall
          (toolCallParams kGetSchemas (.obj [(kCatalogName, .str cat)])) with
      | (.error e, st1) => (.error e, st1)
      | (.ok r1, st1) =>
        match extractText r1 with
        | .error e => (.error e, st1)
        | .ok schemasText =>
          match callMcp env st1 kToolsCall
              (toolCallParams kGetTables
                (.obj [(kCatalogName, .str cat), (kSchemaName, .str (""))])) with
          | (.error e, st2) => (.error e, st2)
          | (.ok r2, st2) =>
            match extractText r2 with
            | .error e => (.error e, st2)
            | .ok tablesText =>
              sweepLoop env rest st2 (dictInsert acc cat ⟨[], schemasText, tablesText⟩)

/-- `discover_and_cache()` (schema_cache.py lines 37-93).  The cache file
is threaded as `Option SchemaData` (its parsed content, `none` when
absent); `save` is the final assignment to it.  The function first runs
the handshake, resolves the catalog list (forced override or a live
getCatalogs call parsed by `parseCatalogNames`), runs the sweep loop, and
only on full success stamps and persists the schema; any exception
propagates with the file component returned unchanged. -/
def discoverAndCache (env : Env) (forcedCatalog : String) (now : Int)
    (st : MCPState) (file : Option SchemaData) :
    Except PyErr SchemaData × MCPState × Option SchemaData :=
  match ensureInitialized env st with
  | (.error e, st1) => (.error e, st1, file)
  | (.ok _, st1) =>
    if !forcedCatalog.isEmpty then
      match sweepLoop env [forcedCatalog] st1 [] with
      | (.error e, st2) => (.error e, st2, file)
      | (.ok cats, st2) =>
        let d : SchemaData := ⟨now, none, cats⟩
        (.ok d, st2, some d)
    else
      match callMcp env st1 kToolsCall (toolCallParams kGetCatalogs (.obj [])) with
      | (.error e, st2) => (.error e, st2, file)
      | (.ok r, st2) =>
        match extractText r with
        | .error e => (.error e, st2, file)
        | .ok catalogsJson =>
          match catalogsJson with
          | .str ctext =>
            let names := (parseCatalogNames ctext.toList).map (fun l => String.mk l)
            match sweepLoop env names st2 [] with
            | (.error e, st3) => (.error e, st3, file)
            | (.ok cats, st3) =>
              let d : SchemaData := ⟨now, some catalogsJson, cats⟩
              (.ok d, st3, some d)
          | _ => (.error ⟨kAttributeError, kNoGet⟩, st2, file)

/-- A tool-response envelope whose single content entry carries `s`. -/
def toolTextResponse (s : String) : Json :=
  .obj [(kContent, .arr [.obj [(kType, .str kText), (kText, .str s)]])]

/-- An oracle on which every request fails at the transport layer. -/
def failAllEnv : Env := ⟨fun _ _ _ => .error ⟨kRequestException, ("boom")⟩⟩

/-- An oracle on which every request succeeds with a fixed text payload. -/
def okTextEnv : Env := ⟨fun _ _ _ => .ok [(kResult, toolTextResponse ("x"))]⟩

/-- An oracle for the C3 scenario: the handshake succeeds, getCatalogs
answers with three catalogs, and the sixth request — the second catalog's
getTables call, with one catalog still remaining — fails at the transport
layer. -/
def failSecondTablesEnv : Env :=
  ⟨fun id _ _ =>
    if id = 2 then .ok [(kResult, toolTextResponse ("catalog\nA\nB\nC\n"))]
    else if id = 6 then .error ⟨kRequestException, ("boom")⟩
    else .ok [(kResult, toolTextResponse ("ok"))]⟩

/-- A pre-existing cache file content used by the C3 scenario. -/
def cacheBefore : SchemaData := ⟨1, none, []⟩

/-- The documented example tool response of claim C6: one text entry whose
text is the serialized one-column, one-row result set. -/
def exToolResponse : Json :=
  toolTextResponse
    ("\x7b\"results\":[\x7b\"schema\":[\x7b\"columnName\":\"Name\"\x7d],\"rows\":[[\"Acme\"]]\x7d]\x7d")

/-- A tool response whose row is longer than its column list (claim C5). -/
def longRowResponse : Json :=
  toolTextResponse
    ("\x7b\"results\":[\x7b\"schema\":[\x7b\"columnName\":\"Name\"\x7d],\"rows\":[[\"Acme\",\"X\"]]\x7d]\x7d")

/-- The agent-side loop issuing a sequence of mcp_tools `query_data`
calls one after another, each outcome caught by the caller, threading the
module state. -/
def runQuerySequence (env : Env) (st : MCPState) : List String → MCPState
  | [] => st
  | q :: qs => runQuerySequence env (queryDataTool env st q).2 qs

/-- Dropping a prefix never lengthens a list. -/
theorem dropWhile_length_le (p : Char → Bool) :
    ∀ l : List Char, (l.dropWhile p).length ≤ l.length := by
  intro l
  induction l with
  | nil => simp
  | cons c r ih =>
    simp only [List.dropWhile]
    split
    · exact Nat.le_succ_of_le ih
    · simp

/-- A character cannot satisfy the predicate once `dropWhile` keeps the
whole list starting with it. -/
theorem head_false_of_dropWhile_fix {p : Char → Bool} {c : Char} {l : List Char}
    (h : (c :: l).dropWhile p = c :: l) : p c = false := by
  by_cases hc : p c = true
  · exfalso
    simp only [List.dropWhile, hc] at h
    have hlen := congrArg List.length h
    have hle := dropWhile_length_le p l
    simp only [List.length_cons] at hlen
    omega
  · simpa using hc

/-- Appending after a nonempty `dropWhile`-fixed list leaves `dropWhile`
trivial. -/
theorem dropWhile_append_fix {p : Char → Bool} {l : List Char}
    (hfix : l.dropWhile p = l) (hne : l ≠ []) (m : List Char) :
    (l ++ m).dropWhile p = l ++ m := by
  cases l with
  | nil => exact absurd rfl hne
  | cons c r =>
    have hc := head_false_of_dropWhile_fix hfix
    simp [List.dropWhile_cons, hc]

/-- Prepending before a list whose reverse is `dropWhile`-fixed leaves
`dropTrail` trivial. -/
theorem dropTrail_append_fix {p : Char → Bool} {l : List Char}
    (hfix : l.reverse.dropWhile p = l.reverse) (hne : l ≠ []) (m : List Char) :
    dropTrail p (m ++ l) = m ++ l := by
  unfold dropTrail
  rw [List.reverse_append]
  rw [dropWhile_append_fix hfix (by simpa using hne) m.reverse]
  simp

/-- A list stripped on both ends is a `pyStrip` fixed point. -/
theorem pyStrip_fix {l : List Char}
    (hL : l.dropWhile pySpace = l) (hR : l.reverse.dropWhile pySpace = l.reverse) :
    pyStrip l = l := by
  unfold pyStrip stripSet dropTrail
  rw [hL, hR, List.reverse_reverse]

/-- `splitNl` of a newline-free list is that single line. -/
theorem splitNl_no_newline : ∀ l : List Char, '\n' ∉ l → splitNl l = [l] := by
  intro l
  induction l with
  | nil => intro _; rfl
  | cons c r ih =>
    intro h
    have hc : ¬ c = '\n' := fun hh => h (hh ▸ List.mem_cons_self c r)
    have hr : '\n' ∉ r := fun hh => h (List.mem_cons_of_mem c hh)
    simp only [splitNl, if_neg hc, ih hr]

/-- `splitNl` splits at the first newline. -/
theorem splitNl_append_newline :
    ∀ a b : List Char, '\n' ∉ a → splitNl (a ++ '\n' :: b) = a :: splitNl b := by
  intro a
  induction a with
  | nil => intro b _; simp [splitNl]
  | cons c r ih =>
    intro b h
    have hc : ¬ c = '\n' := fun hh => h (hh ▸ List.mem_cons_self c r)
    have hr : '\n' ∉ r := fun hh => h (List.mem_cons_of_mem c hh)
    have harr : r.append ('\n' :: b) = r ++ '\n' :: b := rfl
    simp only [List.cons_append, splitNl, if_neg hc, harr, ih b hr]

/-- A list is a prefix of itself followed by anything. -/
theorem startsWithL_append : ∀ p l : List Char, startsWithL p (p ++ l) = true := by
  intro p
  induction p with
  | nil => intro l; rfl
  | cons c r ih => intro l; simp [startsWithL, ih l]

/-- Dropping the marker length recovers the payload. -/
theorem dataMarker_drop (l : List Char) : (dataMarker ++ l).drop 6 = l := by
  have h := List.drop_left dataMarker l
  simp [dataMarker] at h
  simp [dataMarker, h]

/-- The marker itself survives `dropWhile pySpace`. -/
theorem dataMarker_dropWhile_fix : dataMarker.dropWhile pySpace = dataMarker := by
  decide

/-- Stripping an SSE-framed line (marker, trimmed payload, trailing
newline) leaves marker plus payload. -/
theorem pyStrip_framed {t : List Char}
    (htr : t.reverse.dropWhile pySpace = t.reverse) (htne : t ≠ []) :
    pyStrip (dataMarker ++ t ++ ['\n']) = dataMarker ++ t := by
  unfold pyStrip stripSet
  rw [List.append_assoc]
  rw [dropWhile_append_fix dataMarker_dropWhile_fix (by decide) (t ++ ['\n'])]
  rw [← List.append_assoc]
  unfold dropTrail
  have h1 : (dataMarker ++ t ++ ['\n']).reverse = '\n' :: (t.reverse ++ dataMarker.reverse) := by
    simp
  rw [h1]
  have h2 : pySpace '\n' = true := by decide
  simp only [List.dropWhile, h2]
  rw [dropWhile_append_fix htr (by simpa using htne) dataMarker.reverse]
  simp

/-- Stripping a two-data-line body whose last payload is trimmed and
nonempty is the identity. -/
theorem pyStrip_two_data_lines {a b : List Char}
    (hbr : b.reverse.dropWhile pySpace = b.reverse) (hbne : b ≠ []) :
    pyStrip (dataMarker ++ a ++ '\n' :: (dataMarker ++ b)) =
      dataMarker ++ a ++ '\n' :: (dataMarker ++ b) := by
  unfold pyStrip stripSet
  rw [List.append_assoc]
  rw [dropWhile_append_fix dataMarker_dropWhile_fix (by decide)
    (a ++ '\n' :: (dataMarker ++ b))]
  have hshape : dataMarker ++ (a ++ '\n' :: (dataMarker ++ b)) =
      (dataMarker ++ a ++ ['\n']) ++ (dataMarker ++ b) := by simp
  rw [hshape]
  have hfix : (dataMarker ++ b).reverse.dropWhile pySpace = (dataMarker ++ b).reverse := by
    rw [List.reverse_append]
    exact dropWhile_append_fix hbr (by simpa using hbne) dataMarker.reverse
  rw [dropTrail_append_fix hfix (by simp [dataMarker]) (dataMarker ++ a ++ ['\n'])]

/-- A nonempty list has `isEmpty = false`. -/
theorem isEmpty_false_of_ne {l : List Char} (h : l ≠ []) : l.isEmpty = false := by
  cases l with
  | nil => exact absurd rfl h
  | cons c r => rfl

/-- There is no newline in the marker-framed line when the payload has
none. -/
theorem no_newline_framed {t : List Char} (htn : '\n' ∉ t) : '\n' ∉ dataMarker ++ t := by
  intro h
  rcases List.mem_append.mp h with h | h
  · simp [dataMarker] at h
  · exact htn h

/-- A plain trimmed single-line body that does not carry the SSE marker
decodes to itself in `_call_mcp`. -/
theorem parseSse_plain {t : List Char}
    (htl : t.dropWhile pySpace = t) (htr : t.reverse.dropWhile pySpace = t.reverse)
    (htne : t ≠ []) (htn : '\n' ∉ t) (htd : startsWithL dataMarker t = false) :
    parseSse t = t := by
  unfold parseSse lastDataPayload
  dsimp only
  rw [pyStrip_fix htl htr, splitNl_no_newline t htn]
  simp [List.foldl, htd]

/-- The SSE-framed version of the same body decodes to the payload in
`_call_mcp`. -/
theorem parseSse_framed {t : List Char}
    (htl : t.dropWhile pySpace = t) (htr : t.reverse.dropWhile pySpace = t.reverse)
    (htne : t ≠ []) (htn : '\n' ∉ t) :
    parseSse (dataMarker ++ t ++ ['\n']) = t := by
  unfold parseSse lastDataPayload
  dsimp only
  rw [pyStrip_framed htr htne, splitNl_no_newline _ (no_newline_framed htn)]
  simp [List.foldl, startsWithL_append, dataMarker_drop, pyStrip_fix htl htr,
    isEmpty_false_of_ne htne]

/-- A plain trimmed single-line body that does not carry the SSE marker
decodes to itself in `_make_request`. -/
theorem parseSseProd_plain {t : List Char}
    (htl : t.dropWhile pySpace = t) (htr : t.reverse.dropWhile pySpace = t.reverse)
    (htne : t ≠ []) (htn : '\n' ∉ t) (htd : startsWithL dataMarker t = false) :
    parseSseProd t = t := by
  unfold parseSseProd
  dsimp only
  rw [pyStrip_fix htl htr]
  simp only [htd, Bool.false_eq_true, if_false]
  rw [splitNl_no_newline t htn]
  simp [List.foldl, htd, pyStrip_fix htl htr, isEmpty_false_of_ne htne]

/-- The SSE-framed version of the same body decodes to the payload in
`_make_request`. -/
theorem parseSseProd_framed {t : List Char}
    (htl : t.dropWhile pySpace = t) (htr : t.reverse.dropWhile pySpace = t.reverse)
    (htne : t ≠ []) (htn : '\n' ∉ t) (htd : startsWithL dataMarker t = false) :
    parseSseProd (dataMarker ++ t ++ ['\n']) = t := by
  unfold parseSseProd
  dsimp only
  rw [pyStrip_framed htr htne]
  simp only [startsWithL_append, if_true, dataMarker_drop, pyStrip_fix htl htr]
  rw [splitNl_no_newline t htn]
  simp [List.foldl, htd, pyStrip_fix htl htr, isEmpty_false_of_ne htne]

/-- Stripping the loop payload of a two-data-line body is the identity. -/
theorem pyStrip_payload_two {a b : List Char}
    (hal : a.dropWhile pySpace = a) (hane : a ≠ [])
    (hbr : b.reverse.dropWhile pySpace = b.reverse) (hbne : b ≠ []) :
    pyStrip (a ++ '\n' :: (dataMarker ++ b)) = a ++ '\n' :: (dataMarker ++ b) := by
  unfold pyStrip stripSet
  rw [dropWhile_append_fix hal hane ('\n' :: (dataMarker ++ b))]
  have hshape : a ++ '\n' :: (dataMarker ++ b) = (a ++ ['\n']) ++ (dataMarker ++ b) := by
    simp
  rw [hshape]
  have hfix : (dataMarker ++ b).reverse.dropWhile pySpace = (dataMarker ++ b).reverse := by
    rw [List.reverse_append]
    exact dropWhile_append_fix hbr (by simpa using hbne) dataMarker.reverse
  rw [dropTrail_append_fix hfix (by simp [dataMarker]) (a ++ ['\n'])]

/-- With two `data: ` lines, `_call_mcp` decodes the payload of the last
one. -/
theorem parseSse_lastwins {a b : List Char}
    (hal : a.dropWhile pySpace = a) (har : a.reverse.dropWhile pySpace = a.reverse)
    (hane : a ≠ []) (han : '\n' ∉ a)
    (hbl : b.dropWhile pySpace = b) (hbr : b.reverse.dropWhile pySpace = b.reverse)
    (hbne : b ≠ []) (hbn : '\n' ∉ b) :
    parseSse (dataMarker ++ a ++ '\n' :: (dataMarker ++ b)) = b := by
  unfold parseSse lastDataPayload
  dsimp only
  rw [pyStrip_two_data_lines hbr hbne]
  rw [show dataMarker ++ a ++ '\n' :: (dataMarker ++ b) =
    (dataMarker ++ a) ++ '\n' :: (dataMarker ++ b) from rfl]
  rw [splitNl_append_newline _ _ (no_newline_framed han),
    splitNl_no_newline _ (no_newline_framed hbn)]
  simp [List.foldl, startsWithL_append, dataMarker_drop, pyStrip_fix hal har,
    pyStrip_fix hbl hbr, isEmpty_false_of_ne hbne]

/-- With two `data: ` lines, `_make_request` decodes the payload of the
last one. -/
theorem parseSseProd_lastwins {a b : List Char}
    (hal : a.dropWhile pySpace = a) (har : a.reverse.dropWhile pySpace = a.reverse)
    (hane : a ≠ []) (han : '\n' ∉ a) (had : startsWithL dataMarker a = false)
    (hbl : b.dropWhile pySpace = b) (hbr : b.reverse.dropWhile pySpace = b.reverse)
    (hbne : b ≠ []) (hbn : '\n' ∉ b) :
    parseSseProd (dataMarker ++ a ++ '\n' :: (dataMarker ++ b)) = b := by
  unfold parseSseProd
  dsimp only
  rw [pyStrip_two_data_lines hbr hbne]
  have hassoc : dataMarker ++ a ++ '\n' :: (dataMarker ++ b) =
      dataMarker ++ (a ++ '\n' :: (dataMarker ++ b)) := by simp
  rw [hassoc]
  simp only [startsWithL_append, if_true, dataMarker_drop]
  rw [pyStrip_payload_two hal hane hbr hbne]
  rw [splitNl_append_newline _ _ han, splitNl_no_newline _ (no_newline_framed hbn)]
  simp [List.foldl, had, startsWithL_append, dataMarker_drop,
    pyStrip_fix hal har, pyStrip_fix hbl hbr, isEmpty_false_of_ne hane]

/-- C2: response decoding is framing-agnostic — for a trimmed,
newline-free, non-marker-carrying body `t` (the compact JSON text of any
JSON-RPC response object is such a body), both `_call_mcp`'s and
`_make_request`'s decoders select the same JSON text from the raw body
and from its `data: `-framed, newline-terminated version; and on a body
with multiple `data: ` lines both decoders select the payload of the last
such line. -/
theorem c2_decoding_framing_agnostic (t a b : List Char)
    (htl : t.dropWhile pySpace = t) (htr : t.reverse.dropWhile pySpace = t.reverse)
    (htne : t ≠ []) (htn : '\n' ∉ t) (htd : startsWithL dataMarker t = false)
    (hal : a.dropWhile pySpace = a) (har : a.reverse.dropWhile pySpace = a.reverse)
    (hane : a ≠ []) (han : '\n' ∉ a) (had : startsWithL dataMarker a = false)
    (hbl : b.dropWhile pySpace = b) (hbr : b.reverse.dropWhile pySpace = b.reverse)
    (hbne : b ≠ []) (hbn : '\n' ∉ b) :
    parseSse (dataMarker ++ t ++ ['\n']) = parseSse t ∧
    parseSseProd (dataMarker ++ t ++ ['\n']) = parseSseProd t ∧
    parseSse t = t ∧
    parseSse (dataMarker ++ a ++ '\n' :: (dataMarker ++ b)) = b ∧
    parseSseProd (dataMarker ++ a ++ '\n' :: (dataMarker ++ b)) = b := by
  refine ⟨?_, ?_, ?_, ?_, ?_⟩
  · rw [parseSse_framed htl htr htne htn, parseSse_plain htl htr htne htn htd]
  · rw [parseSseProd_framed htl htr htne htn htd,
      parseSseProd_plain htl htr htne htn htd]
  · exact parseSse_plain htl htr htne htn htd
  · exact parseSse_lastwins hal har hane han hbl hbr hbne hbn
  · exact parseSseProd_lastwins hal har hane han had hbl hbr hbne hbn

/-- Witness for C2 at the concrete bodies `X`, `A`, `B`. -/
theorem c2_decoding_framing_agnostic_witness :
    parseSse (dataMarker ++ ['X'] ++ ['\n']) = parseSse ['X'] ∧
    parseSseProd (dataMarker ++ ['X'] ++ ['\n']) = parseSseProd ['X'] ∧
    parseSse ['X'] = ['X'] ∧
    parseSse (dataMarker ++ ['A'] ++ '\n' :: (dataMarker ++ ['B'])) = ['B'] ∧
    parseSseProd (dataMarker ++ ['A'] ++ '\n' :: (dataMarker ++ ['B'])) = ['B'] :=
  c2_decoding_framing_agnostic ['X'] ['A'] ['B']
    (by decide) (by decide) (by decide) (by decide) (by decide)
    (by decide) (by decide) (by decide) (by decide) (by decide)
    (by decide) (by decide) (by decide) (by decide)

/-- C1 counterexample: on the decoded response `\x7b"error": \x7b"code": 5\x7d\x7d`
(truthy error, no `message`), `_call_mcp` raises with the default message
`Unknown`, not the claimed `Unknown error`; and on a success response with
no `result` field, `_make_request` returns `None`, not the claimed empty
mapping. -/
theorem c1_counterexample :
    callMcpPostDecode [(kError, Json.obj [("code", Json.num 5)])] =
      Except.error ⟨kRuntimeError, "MCP error: Unknown"⟩ ∧
    ("MCP error: Unknown" : String) ≠ "MCP error: " ++ kUnknownError ∧
    makeRequestPostDecode [("jsonrpc", Json.str ("2.0"))] = Except.ok Json.null ∧
    Json.null ≠ Json.obj [] := by
  refine ⟨rfl, by decide, rfl, fun h => Json.noConfusion h⟩

/-- C1 as amended: for every decoded JSON-RPC response object, a truthy
dict-shaped `error` makes `_call_mcp` raise `MCP error: <message>` with
default message `Unknown`, and `_make_request` raise `MCP Error:
<message>` with default message `Unknown error`; without a truthy error,
`_call_mcp` returns the `result` field (empty mapping when absent) while
`_make_request` returns it via `.get` (`None` when absent). -/
theorem c1_send_result_error_amended :
    (∀ (fs efs : List (String × Json)) (m : String),
      fs.lookup kError = some (Json.obj efs) → (Json.obj efs).truthy = true →
      efs.lookup kMessage = some (Json.str m) →
      callMcpPostDecode fs = Except.error ⟨kRuntimeError, "MCP error: " ++ m⟩ ∧
      makeRequestPostDecode fs = Except.error ⟨kException, "MCP Error: " ++ m⟩) ∧
    (∀ (fs efs : List (String × Json)),
      fs.lookup kError = some (Json.obj efs) → (Json.obj efs).truthy = true →
      efs.lookup kMessage = none →
      callMcpPostDecode fs = Except.error ⟨kRuntimeError, "MCP error: " ++ kUnknown⟩ ∧
      makeRequestPostDecode fs =
        Except.error ⟨kException, "MCP Error: " ++ kUnknownError⟩) ∧
    (∀ fs : List (String × Json),
      fs.lookup kError = none →
      callMcpPostDecode fs = Except.ok ((fs.lookup kResult).getD (Json.obj [])) ∧
      makeRequestPostDecode fs = Except.ok ((fs.lookup kResult).getD Json.null)) ∧
    (∀ (fs : List (String × Json)) (e : Json),
      fs.lookup kError = some e → e.truthy = false →
      callMcpPostDecode fs = Except.ok ((fs.lookup kResult).getD (Json.obj [])) ∧
      makeRequestPostDecode fs = Except.ok ((fs.lookup kResult).getD Json.null)) := by
  refine ⟨?_, ?_, ?_, ?_⟩
  · intro fs efs m he ht hm
    constructor
    · unfold callMcpPostDecode
      rw [he]
      simp [ht, hm, pyStr]
    · unfold makeRequestPostDecode
      rw [he]
      simp [ht, hm, pyStr]
  · intro fs efs he ht hm
    constructor
    · unfold callMcpPostDecode
      rw [he]
      simp [ht, hm, pyStr]
    · unfold makeRequestPostDecode
      rw [he]
      simp [ht, hm, pyStr]
  · intro fs he
    constructor
    · unfold callMcpPostDecode
      rw [he]
    · unfold makeRequestPostDecode
      rw [he]
  · intro fs e he ht
    constructor
    · unfold callMcpPostDecode
      rw [he]
      simp [ht]
    · unfold makeRequestPostDecode
      rw [he]
      simp [ht]

/-- Witness for C1 at concrete responses: a present string message, an
absent message, and an absent result. -/
theorem c1_send_result_error_amended_witness :
    (callMcpPostDecode [(kError, Json.obj [(kMessage, Json.str ("boom"))])] =
      Except.error ⟨kRuntimeError, "MCP error: " ++ "boom"⟩ ∧
     makeRequestPostDecode [(kError, Json.obj [(kMessage, Json.str ("boom"))])] =
      Except.error ⟨kException, "MCP Error: " ++ "boom"⟩) ∧
    (callMcpPostDecode [(kError, Json.obj [("code", Json.num 5)])] =
      Except.error ⟨kRuntimeError, "MCP error: " ++ kUnknown⟩) ∧
    (makeRequestPostDecode [("jsonrpc", Json.str ("2.0"))] =
      Except.ok (([(("jsonrpc" : String), Json.str ("2.0"))].lookup kResult).getD
        Json.null)) := by
  refine ⟨?_, ?_, ?_⟩
  · exact c1_send_result_error_amended.1
      [(kError, Json.obj [(kMessage, Json.str ("boom"))])]
      [(kMessage, Json.str ("boom"))] ("boom") rfl rfl rfl
  · exact (c1_send_result_error_amended.2.1
      [(kError, Json.obj [("code", Json.num 5)])]
      [("code", Json.num 5)] rfl rfl rfl).1
  · exact (c1_send_result_error_amended.2.2.1
      [("jsonrpc", Json.str ("2.0"))] rfl).2

/-- C5 counterexample: a row longer than the column list and a row shorter
than the column list are both converted without any error, the zip
silently dropping the surplus — including end-to-end through
`extractRecords` on a full tool response. -/
theorem c5_counterexample :
    rowsToRecords [Json.str ("Name")] [Json.arr [Json.str ("Acme"), Json.str ("X")]] =
      Except.ok [[(Json.str ("Name"), Json.str ("Acme"))]] ∧
    rowsToRecords [Json.str ("Name"), Json.str ("Id")] [Json.arr [Json.str ("Acme")]] =
      Except.ok [[(Json.str ("Name"), Json.str ("Acme"))]] ∧
    extractRecords longRowResponse = [[(Json.str ("Name"), Json.str ("Acme"))]] :=
  ⟨rfl, rfl, rfl⟩

/-- C5 as amended: the row-to-record conversion never fails on list-shaped
rows of any length; each record is the positional zip of the column names
with the row, truncated to the shorter of the two — surplus row values are
dropped and missing trailing columns are omitted, with no
malformed-response error. -/
theorem c5_row_conversion_truncates (names : List Json) (vss : List (List Json)) :
    rowsToRecords names (vss.map Json.arr) =
      Except.ok (vss.map (fun vs => names.zip vs)) ∧
    (vss.map (fun vs => (names.zip vs).length)) =
      vss.map (fun vs => min names.length vs.length) := by
  constructor
  · induction vss with
    | nil => rfl
    | cons vs rest ih =>
      simp only [List.map_cons, rowsToRecords, pyIter, ih, Except.map]
  · simp [List.length_zip]

/-- C8 counterexample: on the line `,AcmeCo` the code strips the leading
comma as well (since `.strip(",")` is two-sided), yielding `AcmeCo`,
whereas the claim's description — trailing commas only — would keep
`,AcmeCo`. -/
theorem c8_counterexample :
    parseCatalogNames (",AcmeCo").toList = [("AcmeCo").toList] ∧
    specParseCatalogNames (",AcmeCo").toList = [(",AcmeCo").toList] ∧
    ("AcmeCo").toList ≠ (",AcmeCo").toList := by
  decide

/-- C8 as amended: catalog-name parsing keeps exactly the lines that are
non-blank and do not start with `catalog`, and strips surrounding
whitespace, then surrounding double quotes, then surrounding (leading as
well as trailing) commas from each kept line; on
`catalog\nAcmeCo\n\nNordicEnergy\n` it yields exactly
`[AcmeCo, NordicEnergy]` in that order. -/
theorem c8_catalog_parsing_amended :
    (∀ t : List Char, parseCatalogNames t = amendedParseCatalogNames t) ∧
    parseCatalogNames ("catalog\nAcmeCo\n\nNordicEnergy\n").toList =
      [("AcmeCo").toList, ("NordicEnergy").toList] :=
  ⟨fun _ => rfl, by decide⟩

/-- When a prefix of the content list has no text-typed entry, the
first-text loop is decided by the rest of the list. -/
theorem firstTextEntry_append (l₂ : List Json) :
    ∀ l₁, firstTextEntry l₁ = Except.ok none →
      firstTextEntry (l₁ ++ l₂) = firstTextEntry l₂ := by
  intro l₁
  induction l₁ with
  | nil => intro _; rfl
  | cons a l ih =>
    intro h
    cases a with
    | obj fs =>
      rw [List.cons_append]
      simp only [firstTextEntry] at h ⊢
      cases hk : fs.lookup kType with
      | none => rw [hk] at h; exact ih h
      | some v =>
        rw [hk] at h
        cases v with
        | str t =>
          dsimp only at h ⊢
          by_cases ht : t = kText
          · rw [if_pos ht] at h; exact absurd h (by simp)
          · rw [if_neg ht] at h ⊢; exact ih h
        | null => exact ih h
        | bool b => exact ih h
        | num n => exact ih h
        | arr xs => exact ih h
        | obj gs => exact ih h
    | null => exact absurd h (by simp [firstTextEntry])
    | bool b => exact absurd h (by simp [firstTextEntry])
    | num n => exact absurd h (by simp [firstTextEntry])
    | str s => exact absurd h (by simp [firstTextEntry])
    | arr xs => exact absurd h (by simp [firstTextEntry])

/-- `str` of a dict is never the empty string. -/
theorem pyStr_obj_ne_empty (fs : List (String × Json)) : pyStr (Json.obj fs) ≠ "" := by
  show pyRepr (Json.obj fs) ≠ ""
  rw [pyRepr]
  intro h
  have hl := congrArg String.length h
  rw [String.length_append, String.length_append] at hl
  have h1 : ("\x7b" : String).length = 1 := rfl
  have h2 : ("\x7d" : String).length = 1 := rfl
  rw [h1, h2] at hl
  simp at hl

/-- Unfolding `_extract_text` on a well-shaped envelope whose first
text-typed entry is found. -/
theorem extractText_first (items : List Json) (t : Json)
    (h : firstTextEntry items = Except.ok (some t)) :
    extractText (Json.obj [(kContent, Json.arr items)]) = Except.ok t := by
  have hl : (([(kContent, Json.arr items)] : List (String × Json)).lookup kContent) =
      some (Json.arr items) := rfl
  simp only [extractText, hl, pyIter, h]

/-- Unfolding the production text-content extraction on a well-shaped
envelope whose first text-typed entry is found. -/
theorem prodTextContent_first (items : List Json) (t : Json)
    (h : firstTextEntry items = Except.ok (some t)) :
    prodTextContent (Json.obj [(kContent, Json.arr items)]) = Except.ok t := by
  have hl : (([(kContent, Json.arr items)] : List (String × Json)).lookup kContent) =
      some (Json.arr items) := rfl
  simp only [prodTextContent, hl, pyIter, h]

/-- C9: the extraction is decided entirely by the first text-typed content
entry — when that entry lacks a `text` field both extractors return the
empty string (for `_extract_text`, not the stringified whole response),
and the entries after the first text-typed entry never affect the
result. -/
theorem c9_first_text_entry_decides
    (pre rest : List Json) (fs : List (String × Json))
    (hpre : firstTextEntry pre = Except.ok none)
    (hty : fs.lookup kType = some (Json.str kText))
    (htx : fs.lookup kText = none) :
    extractText (Json.obj [(kContent, Json.arr (pre ++ Json.obj fs :: rest))]) =
      Except.ok (Json.str ("")) ∧
    extractText (Json.obj [(kContent, Json.arr (pre ++ Json.obj fs :: rest))]) ≠
      Except.ok (Json.str (pyStr
        (Json.obj [(kContent, Json.arr (pre ++ Json.obj fs :: rest))]))) ∧
    (∀ (fs2 : List (String × Json)) (rest2 rest3 : List Json),
      fs2.lookup kType = some (Json.str kText) →
      extractText (Json.obj [(kContent, Json.arr (pre ++ Json.obj fs2 :: rest2))]) =
        extractText (Json.obj [(kContent, Json.arr (pre ++ Json.obj fs2 :: rest3))])) ∧
    prodTextContent (Json.obj [(kContent, Json.arr (pre ++ Json.obj fs :: rest))]) =
      Except.ok (Json.str ("")) := by
  have hfe : firstTextEntry (pre ++ Json.obj fs :: rest) =
      Except.ok (some (Json.str (""))) := by
    rw [firstTextEntry_append _ pre hpre]
    simp [firstTextEntry, hty, htx]
  have h1 : extractText (Json.obj [(kContent, Json.arr (pre ++ Json.obj fs :: rest))]) =
      Except.ok (Json.str ("")) := by
    exact extractText_first _ _ hfe
  refine ⟨h1, ?_, ?_, ?_⟩
  · rw [h1]
    intro heq
    have hs := heq
    simp only [Except.ok.injEq, Json.str.injEq] at hs
    exact pyStr_obj_ne_empty _ hs.symm
  · intro fs2 rest2 rest3 hty2
    have hgen : ∀ r : List Json, firstTextEntry (pre ++ Json.obj fs2 :: r) =
        Except.ok (some ((fs2.lookup kText).getD (Json.str ("")))) := by
      intro r
      rw [firstTextEntry_append _ pre hpre]
      simp [firstTextEntry, hty2]
    rw [extractText_first _ _ (hgen rest2), extractText_first _ _ (hgen rest3)]
  · exact prodTextContent_first _ _ hfe

/-- Witness for C9: a content list with an image entry first, then a
text entry lacking `text`, then a later text entry that is ignored. -/
theorem c9_first_text_entry_decides_witness :
    extractText (Json.obj [(kContent, Json.arr
      ([Json.obj [(kType, Json.str ("image"))]] ++
        Json.obj [(kType, Json.str kText)] ::
          [Json.obj [(kType, Json.str kText), (kText, Json.str ("later"))]]))]) =
      Except.ok (Json.str ("")) :=
  (c9_first_text_entry_decides
    [Json.obj [(kType, Json.str ("image"))]]
    [Json.obj [(kType, Json.str kText), (kText, Json.str ("later"))]]
    [(kType, Json.str kText)] rfl rfl rfl).1

/-- C6: `extractRecords` yields exactly one record `Name: Acme` on the
documented example; returns the empty list whenever the inner text fails
to parse as JSON; and returns the empty list when `results` is absent or
falsy, or when the first result set's `schema` or `rows` is falsy
(absent or empty). -/
theorem c6_extract_records_contract :
    extractRecords exToolResponse = [[(Json.str ("Name"), Json.str ("Acme"))]] ∧
    (∀ (r : Json) (s : String),
      prodTextContent r = Except.ok (Json.str s) →
      parseJson s.toList = none →
      extractRecords r = []) ∧
    (∀ (r : Json) (s : String) (dfs : List (String × Json)),
      prodTextContent r = Except.ok (Json.str s) →
      parseJson s.toList = some (Json.obj dfs) →
      dfs.lookup kResults = none →
      extractRecords r = []) ∧
    (∀ (r : Json) (s : String) (dfs : List (String × Json)) (rs : Json),
      prodTextContent r = Except.ok (Json.str s) →
      parseJson s.toList = some (Json.obj dfs) →
      dfs.lookup kResults = some rs →
      rs.truthy = false →
      extractRecords r = []) ∧
    (∀ (r : Json) (s : String) (dfs : List (String × Json)) (rfs : List (String × Json))
        (tail : List Json),
      prodTextContent r = Except.ok (Json.str s) →
      parseJson s.toList = some (Json.obj dfs) →
      dfs.lookup kResults = some (Json.arr (Json.obj rfs :: tail)) →
      (((rfs.lookup kSchema).getD (Json.arr [])).truthy = false ∨
        ((rfs.lookup kRows).getD (Json.arr [])).truthy = false) →
      extractRecords r = []) := by
  have hstr : ∀ s : String, ¬ s.isEmpty = true → (Json.str s).truthy = true := by
    intro s hs
    simp [Json.truthy, hs]
  have hstrf : ∀ s : String, s.isEmpty = true → (Json.str s).truthy = false := by
    intro s hs
    simp [Json.truthy, hs]
  refine ⟨rfl, ?_, ?_, ?_, ?_⟩
  · intro r s hpt hp
    have hp2 : parseJson s.data = none := hp
    by_cases htr : r.truthy
    · by_cases hs : s.isEmpty
      · simp [extractRecords, htr, hpt, hstrf s hs]
      · simp [extractRecords, htr, hpt, hstr s hs, hp2]
    · simp [extractRecords, htr]
  · intro r s dfs hpt hp hres
    have hp2 : parseJson s.data = some (Json.obj dfs) := hp
    by_cases htr : r.truthy
    · by_cases hs : s.isEmpty
      · simp [extractRecords, htr, hpt, hstrf s hs]
      · simp [extractRecords, htr, hpt, hstr s hs, hp2, hres]
    · simp [extractRecords, htr]
  · intro r s dfs rs hpt hp hres hrs
    have hp2 : parseJson s.data = some (Json.obj dfs) := hp
    by_cases htr : r.truthy
    · by_cases hs : s.isEmpty
      · simp [extractRecords, htr, hpt, hstrf s hs]
      · simp [extractRecords, htr, hpt, hstr s hs, hp2, hres, hrs]
    · simp [extractRecords, htr]
  · intro r s dfs rfs tail hpt hp hres hempty
    have hp2 : parseJson s.data = some (Json.obj dfs) := hp
    by_cases htr : r.truthy
    · by_cases hs : s.isEmpty
      · simp [extractRecords, htr, hpt, hstrf s hs]
      · rcases hempty with h | h <;>
          simp [extractRecords, htr, hpt, hstr s hs, hp2, hres, h]
    · simp [extractRecords, htr]

/-- Witness for C6: a non-JSON inner text and an empty `results` list both
yield the empty record list. -/
theorem c6_extract_records_contract_witness :
    extractRecords (toolTextResponse ("not json")) = [] ∧
    extractRecords (toolTextResponse ("\x7b\"results\":[]\x7d")) = [] := by
  constructor
  · exact c6_extract_records_contract.2.1 (toolTextResponse ("not json"))
      ("not json") rfl rfl
  · exact c6_extract_records_contract.2.2.2.1
      (toolTextResponse ("\x7b\"results\":[]\x7d"))
      ("\x7b\"results\":[]\x7d") [(kResults, Json.arr [])] (Json.arr [])
      rfl rfl rfl rfl

/-- C4 counterexample: on a transport that raises, the underlying
`_make_request` raises, yet `call_tool` returns `None` normally — the
error is swallowed, not re-raised to the caller. -/
theorem c4_counterexample :
    makeRequest failAllEnv initState kToolsCall
        (toolCallParams kGetCatalogs (Json.obj [])) =
      (Except.error ⟨kException, "MCP request failed: " ++ "boom"⟩,
        ⟨1, false, [kToolsCall]⟩) ∧
    callToolProd failAllEnv initState kGetCatalogs (Json.obj []) =
      (Except.ok Json.null, ⟨1, false, [kToolsCall]⟩) :=
  ⟨rfl, rfl⟩

/-- C4 as amended: the mcp_tools tool wrappers propagate every Transport
error of the underlying send to their caller uncaught, but
`MCPClientProduction.call_tool` never lets an error escape — it catches
every exception and returns `None`. -/
theorem c4_error_propagation_amended :
    (∀ (env : Env) (st : MCPState) (name : String) (args : Json),
      ∃ v st2, callToolProd env st name args = (Except.ok v, st2)) ∧
    (∀ (env : Env) (st : MCPState) (q : String) (e : PyErr) (st1 : MCPState),
      ensureInitialized env st = (Except.error e, st1) →
      queryDataTool env st q = (Except.error e, st1)) ∧
    (∀ (env : Env) (st st1 : MCPState) (q : String) (e : PyErr) (st2 : MCPState),
      ensureInitialized env st = (Except.ok (), st1) →
      callMcp env st1 kToolsCall
        (toolCallParams kQueryData (Json.obj [(kQuery, Json.str q)])) =
        (Except.error e, st2) →
      queryDataTool env st q = (Except.error e, st2)) := by
  refine ⟨?_, ?_, ?_⟩
  · intro env st name args
    rcases h : makeRequest env st kToolsCall (toolCallParams name args) with ⟨r, st2⟩
    cases r with
    | ok v => exact ⟨v, st2, by simp [callToolProd, h]⟩
    | error e => exact ⟨Json.null, st2, by simp [callToolProd, h]⟩
  · intro env st q e st1 h
    simp [queryDataTool, h]
  · intro env st st1 q e st2 h1 h2
    simp [queryDataTool, h1, h2]

/-- Witness for C4: the failing transport oracle at concrete inputs. -/
theorem c4_error_propagation_amended_witness :
    (∃ v st2, callToolProd failAllEnv initState kGetCatalogs (Json.obj []) =
      (Except.ok v, st2)) ∧
    queryDataTool failAllEnv initState ("SELECT 1") =
      (Except.error ⟨kRequestException, ("boom")⟩, ⟨1, false, [kInitialize]⟩) := by
  constructor
  · exact c4_error_propagation_amended.1 failAllEnv initState kGetCatalogs (Json.obj [])
  · exact c4_error_propagation_amended.2.1 failAllEnv initState ("SELECT 1")
      ⟨kRequestException, ("boom")⟩ ⟨1, false, [kInitialize]⟩ rfl

/-- The state after `_call_mcp` always has the incremented id and the
method appended to the log, whatever the outcome. -/
theorem callMcp_snd (env : Env) (st : MCPState) (m : String) (p : Json) :
    (callMcp env st m p).2 =
      { st with requestId := st.requestId + 1, log := st.log ++ [m] } := by
  unfold callMcp
  dsimp only
  cases env.respond (st.requestId + 1) m p <;> rfl

/-- The state after `_make_request` always has the incremented id and the
method appended to the log, whatever the outcome. -/
theorem makeRequest_snd (env : Env) (st : MCPState) (m : String) (p : Json) :
    (makeRequest env st m p).2 =
      { st with requestId := st.requestId + 1, log := st.log ++ [m] } := by
  unfold makeRequest
  dsimp only
  cases env.respond (st.requestId + 1) m p <;> rfl

/-- A `query_data` call on a session already `Ready` sends exactly one
`tools/call` request and leaves the flag set. -/
theorem queryDataTool_ready (env : Env) (st : MCPState) (q : String)
    (h : st.initialized = true) :
    (queryDataTool env st q).2 =
      { st with requestId := st.requestId + 1, log := st.log ++ [kToolsCall] } := by
  have hs := callMcp_snd env st kToolsCall
    (toolCallParams kQueryData (Json.obj [(kQuery, Json.str q)]))
  unfold queryDataTool
  simp only [ensureInitialized, h, if_true]
  rw [h] at hs
  rcases hc : callMcp env st kToolsCall
      (toolCallParams kQueryData (Json.obj [(kQuery, Json.str q)])) with ⟨r, st2⟩
  rw [hc] at hs
  cases r with
  | error e => exact hs
  | ok v =>
    dsimp only
    cases hx : extractText v with
    | error e => exact hs
    | ok t => exact hs

/-- C7 counterexample: a fresh production client's first tool call sends
only `tools/call` — no `initialize` is triggered; and a failed
`initialize()` returns `False` normally instead of surfacing the
Transport error. -/
theorem c7_counterexample :
    (callToolProd okTextEnv initState kGetCatalogs (Json.obj [])).2.log =
      [kToolsCall] ∧
    kInitialize ∉ [kToolsCall] ∧
    initializeProd failAllEnv initState = (false, ⟨1, false, [kInitialize]⟩) := by
  refine ⟨rfl, ?_, rfl⟩
  intro h
  simp [kInitialize, kToolsCall] at h

/-- C7 as amended: in mcp_tools, `_ensure_initialized` is a no-op once the
flag is set, a failed handshake leaves the flag unset and propagates the
error (so a later tool call would re-attempt it), a successful handshake
sets the flag after exactly one `initialize` RPC, and no sequence of tool
calls started in the `Ready` state ever issues another `initialize`.  In
MCPClientProduction, `call_tool` never triggers `initialize` (its only
outbound method is `tools/call`), each explicit `initialize()` call
re-issues the RPC unguarded, and a failed `initialize()` swallows the
error, returning `False` with the flag unchanged. -/
theorem c7_initialize_guard_amended :
    (∀ (env : Env) (st : MCPState), st.initialized = true →
      ensureInitialized env st = (Except.ok (), st)) ∧
    (∀ (env : Env) (st : MCPState) (e : PyErr) (st1 : MCPState),
      st.initialized = false →
      callMcp env st kInitialize initParams = (Except.error e, st1) →
      ensureInitialized env st = (Except.error e, st1) ∧
        st1.initialized = false) ∧
    (∀ (env : Env) (st : MCPState) (r : Json) (st1 : MCPState),
      st.initialized = false →
      callMcp env st kInitialize initParams = (Except.ok r, st1) →
      ensureInitialized env st = (Except.ok (), { st1 with initialized := true }) ∧
        st1.log = st.log ++ [kInitialize]) ∧
    (∀ (env : Env) (st : MCPState) (qs : List String), st.initialized = true →
      (runQuerySequence env st qs).log.count kInitialize =
        st.log.count kInitialize) ∧
    (∀ (env : Env) (st : MCPState) (name : String) (args : Json),
      (callToolProd env st name args).2.log = st.log ++ [kToolsCall]) ∧
    (∀ (env : Env) (st : MCPState),
      (initializeProd env st).2.log = st.log ++ [kInitialize]) ∧
    (∀ (env : Env) (st : MCPState) (e : PyErr) (st1 : MCPState),
      makeRequest env st kInitialize initParamsProd = (Except.error e, st1) →
      initializeProd env st = (false, st1) ∧
        st1.initialized = st.initialized) := by
  refine ⟨?_, ?_, ?_, ?_, ?_, ?_, ?_⟩
  · intro env st h
    simp [ensureInitialized, h]
  · intro env st e st1 h hc
    have hs := callMcp_snd env st kInitialize initParams
    rw [hc] at hs
    dsimp only at hs
    refine ⟨by simp [ensureInitialized, h, hc], ?_⟩
    rw [hs, h]
  · intro env st r st1 h hc
    have hs := callMcp_snd env st kInitialize initParams
    rw [hc] at hs
    dsimp only at hs
    refine ⟨by simp [ensureInitialized, h, hc], ?_⟩
    rw [hs]
  · intro env st qs
    induction qs generalizing st with
    | nil => intro _; rfl
    | cons q rest ih =>
      intro h
      show (runQuerySequence env (queryDataTool env st q).2 rest).log.count kInitialize =
        st.log.count kInitialize
      rw [queryDataTool_ready env st q h]
      rw [ih { st with requestId := st.requestId + 1, log := st.log ++ [kToolsCall] } h]
      show (st.log ++ [kToolsCall]).count kInitialize = st.log.count kInitialize
      rw [List.count_append]
      have hz : [kToolsCall].count kInitialize = 0 := by decide
      rw [hz, Nat.add_zero]
  · intro env st name args
    have hs := makeRequest_snd env st kToolsCall (toolCallParams name args)
    unfold callToolProd
    rcases hm : makeRequest env st kToolsCall (toolCallParams name args) with ⟨r, st2⟩
    rw [hm] at hs
    cases r with
    | error e => exact congrArg MCPState.log hs
    | ok v => exact congrArg MCPState.log hs
  · intro env st
    have hs := makeRequest_snd env st kInitialize initParamsProd
    unfold initializeProd
    rcases hm : makeRequest env st kInitialize initParamsProd with ⟨r, st2⟩
    rw [hm] at hs
    cases r with
    | error e => exact congrArg MCPState.log hs
    | ok v => exact congrArg MCPState.log hs
  · intro env st e st1 hm
    have hs := makeRequest_snd env st kInitialize initParamsProd
    rw [hm] at hs
    dsimp only at hs
    exact ⟨by simp [initializeProd, hm], by rw [hs]⟩

/-- Witness for C7 at concrete oracles and states. -/
theorem c7_initialize_guard_amended_witness :
    ensureInitialized okTextEnv ⟨0, true, []⟩ = (Except.ok (), ⟨0, true, []⟩) ∧
    (ensureInitialized failAllEnv initState =
        (Except.error ⟨kRequestException, ("boom")⟩, ⟨1, false, [kInitialize]⟩) ∧
      (⟨1, false, [kInitialize]⟩ : MCPState).initialized = false) ∧
    (runQuerySequence okTextEnv ⟨0, true, []⟩
        [("SELECT 1"), ("SELECT 2")]).log.count kInitialize =
      (⟨0, true, []⟩ : MCPState).log.count kInitialize ∧
    (initializeProd failAllEnv initState = (false, ⟨1, false, [kInitialize]⟩) ∧
      (⟨1, false, [kInitialize]⟩ : MCPState).initialized = initState.initialized) := by
  refine ⟨?_, ?_, ?_, ?_⟩
  · exact c7_initialize_guard_amended.1 okTextEnv ⟨0, true, []⟩ rfl
  · exact c7_initialize_guard_amended.2.1 failAllEnv initState
      ⟨kRequestException, ("boom")⟩ ⟨1, false, [kInitialize]⟩ rfl rfl
  · exact c7_initialize_guard_amended.2.2.2.1 okTextEnv ⟨0, true, []⟩
      [("SELECT 1"), ("SELECT 2")] rfl
  · exact c7_initialize_guard_amended.2.2.2.2.2.2 failAllEnv initState
      ⟨kException, "MCP request failed: " ++ "boom"⟩ ⟨1, false, [kInitialize]⟩ rfl

/-- C3 counterexample: with the transport failing on the second catalog's
getTables call (one catalog still unprocessed), the sweep propagates the
transport's own `RequestException` — the repository defines no
`DiscoverySweepError` wrapper — while leaving the pre-existing cache file
untouched. -/
theorem c3_counterexample :
    discoverAndCache failSecondTablesEnv ("") 7 initState (some cacheBefore) =
      (Except.error ⟨kRequestException, ("boom")⟩,
        ⟨6, true, [kInitialize, kToolsCall, kToolsCall, kToolsCall, kToolsCall,
          kToolsCall]⟩,
        some cacheBefore) ∧
    kRequestException ≠ "DiscoverySweepError" := by
  exact ⟨rfl, by decide⟩

/-- C3 as amended: the discovery sweep is all-or-nothing — on any failure
at any step the underlying error propagates (the code defines no
`DiscoverySweepError` wrapper) and the cache file is returned exactly as
it was, byte-for-byte untouched; `save` runs only when every catalog has
been processed, and then the file holds exactly the returned schema. -/
theorem c3_sweep_all_or_nothing (env : Env) (forced : String) (now : Int)
    (st : MCPState) (file : Option SchemaData) :
    (∃ e st2, discoverAndCache env forced now st file = (Except.error e, st2, file)) ∨
    (∃ d st2, discoverAndCache env forced now st file = (Except.ok d, st2, some d)) := by
  unfold discoverAndCache
  rcases h1 : ensureInitialized env st with ⟨r1, st1⟩
  cases r1 with
  | error e => exact Or.inl ⟨e, st1, rfl⟩
  | ok u =>
    dsimp only
    by_cases hf : forced.isEmpty
    · simp only [hf, Bool.not_true, Bool.false_eq_true, if_false]
      rcases h3 : callMcp env st1 kToolsCall (toolCallParams kGetCatalogs (Json.obj []))
        with ⟨r3, st2⟩
      cases r3 with
      | error e => exact Or.inl ⟨e, st2, rfl⟩
      | ok r =>
        dsimp only
        cases h4 : extractText r with
        | error e => exact Or.inl ⟨e, st2, rfl⟩
        | ok cj =>
          cases cj with
          | str ctext =>
            dsimp only
            rcases h5 : sweepLoop env
                ((parseCatalogNames ctext.toList).map (fun l => String.mk l)) st2 []
              with ⟨r5, st3⟩
            cases r5 with
            | error e => exact Or.inl ⟨e, st3, rfl⟩
            | ok cats => exact Or.inr ⟨⟨now, some (Json.str ctext), cats⟩, st3, rfl⟩
          | null => exact Or.inl ⟨⟨kAttributeError, kNoGet⟩, st2, rfl⟩
          | bool b => exact Or.inl ⟨⟨kAttributeError, kNoGet⟩, st2, rfl⟩
          | num n => exact Or.inl ⟨⟨kAttributeError, kNoGet⟩, st2, rfl⟩
          | arr xs => exact Or.inl ⟨⟨kAttributeError, kNoGet⟩, st2, rfl⟩
          | obj gs => exact Or.inl ⟨⟨kAttributeError, kNoGet⟩, st2, rfl⟩
    · simp only [hf, Bool.not_false, if_true]
      rcases h2 : sweepLoop env [forced] st1 [] with ⟨r2, st2⟩
      cases r2 with
      | error e => exact Or.inl ⟨e, st2, rfl⟩
      | ok cats => exact Or.inr ⟨⟨now, none, cats⟩, st2, rfl⟩

/-- Python dict assignment adds no key other than the assigned one. -/
theorem dictInsert_keys (d : List (String × CatalogInfo)) (k : String) (v : CatalogInfo) :
    ∀ x ∈ (dictInsert d k v).map Prod.fst, x ∈ d.map Prod.fst ∨ x = k := by
  intro x hx
  unfold dictInsert at hx
  split at hx
  · rw [List.map_map] at hx
    rcases List.mem_map.mp hx with ⟨p, hp, hpx⟩
    by_cases hpk : p.1 == k
    · right
      simp only [Function.comp, hpk, if_true] at hpx
      exact hpx ▸ rfl
    · left
      simp only [Function.comp, hpk, Bool.false_eq_true, if_false] at hpx
      exact hpx ▸ List.mem_map.mpr ⟨p, hp, rfl⟩
  · rw [List.map_append] at hx
    rcases List.mem_append.mp hx with h | h
    · exact Or.inl h
    · right
      simpa using h

/-- Sweep-loop invariant: every catalog key of a successful sweep comes
from the accumulator or is a non-falsy member of the name list. -/
theorem sweepLoop_keys (env : Env) :
    ∀ (names : List String) (st : MCPState) (acc res : List (String × CatalogInfo))
      (st2 : MCPState),
      sweepLoop env names st acc = (Except.ok res, st2) →
      ∀ x ∈ res.map Prod.fst, x ∈ acc.map Prod.fst ∨ (x ∈ names ∧ x ≠ "") := by
  intro names
  induction names with
  | nil =>
    intro st acc res st2 h x hx
    simp only [sweepLoop, Prod.mk.injEq, Except.ok.injEq] at h
    exact Or.inl (h.1 ▸ hx)
  | cons cat rest ih =>
    intro st acc res st2 h x hx
    by_cases hc : cat.isEmpty
    · simp only [sweepLoop, hc, if_true] at h
      rcases ih st acc res st2 h x hx with h' | ⟨hm, hne⟩
      · exact Or.inl h'
      · exact Or.inr ⟨List.mem_cons_of_mem _ hm, hne⟩
    · have hcne : cat ≠ "" := fun he => hc (he ▸ rfl)
      simp only [sweepLoop, hc, Bool.false_eq_true, if_false] at h
      rcases h3 : callMcp env st kToolsCall
          (toolCallParams kGetSchemas (Json.obj [(kCatalogName, Json.str cat)]))
        with ⟨r3, stA⟩
      rw [h3] at h
      cases r3 with
      | error e => exact absurd h (by simp)
      | ok r1 =>
        dsimp only at h
        cases h4 : extractText r1 with
        | error e => rw [h4] at h; exact absurd h (by simp)
        | ok schemasText =>
          rw [h4] at h
          dsimp only at h
          rcases h5 : callMcp env stA kToolsCall
              (toolCallParams kGetTables
                (Json.obj [(kCatalogName, Json.str cat), (kSchemaName, Json.str (""))]))
            with ⟨r5, stB⟩
          rw [h5] at h
          cases r5 with
          | error e => exact absurd h (by simp)
          | ok r2 =>
            dsimp only at h
            cases h6 : extractText r2 with
            | error e => rw [h6] at h; exact absurd h (by simp)
            | ok tablesText =>
              rw [h6] at h
              dsimp only at h
              rcases ih stB (dictInsert acc cat ⟨[], schemasText, tablesText⟩)
                  res st2 h x hx with h' | ⟨hm, hne⟩
              · rcases dictInsert_keys acc cat ⟨[], schemasText, tablesText⟩ x h'
                  with h'' | h''
                · exact Or.inl h''
                · exact Or.inr ⟨h'' ▸ List.mem_cons_self cat rest, h'' ▸ hcne⟩
              · exact Or.inr ⟨List.mem_cons_of_mem _ hm, hne⟩

/-- C10: every entry persisted by a successful discovery sweep has only
non-empty catalog keys — names that are falsy (empty) are skipped by the
loop guard and never stored, for both the forced-override and the live
getCatalogs paths. -/
theorem c10_cached_catalog_keys_nonempty (env : Env) (forced : String) (now : Int)
    (st : MCPState) (file : Option SchemaData) (d : SchemaData) (st2 : MCPState)
    (f2 : Option SchemaData)
    (h : discoverAndCache env forced now st file = (Except.ok d, st2, f2)) :
    ∀ k ∈ d.catalogs.map Prod.fst, k ≠ "" := by
  unfold discoverAndCache at h
  rcases h1 : ensureInitialized env st with ⟨r1, st1⟩
  rw [h1] at h
  cases r1 with
  | error e => exact absurd h (by simp)
  | ok u =>
    dsimp only at h
    by_cases hf : forced.isEmpty
    · simp only [hf, Bool.not_true, Bool.false_eq_true, if_false] at h
      rcases h3 : callMcp env st1 kToolsCall (toolCallParams kGetCatalogs (Json.obj []))
        with ⟨r3, stA⟩
      rw [h3] at h
      cases r3 with
      | error e => exact absurd h (by simp)
      | ok r =>
        dsimp only at h
        cases h4 : extractText r with
        | error e => rw [h4] at h; exact absurd h (by simp)
        | ok cj =>
          rw [h4] at h
          cases cj with
          | str ctext =>
            dsimp only at h
            rcases h5 : sweepLoop env
                ((parseCatalogNames ctext.toList).map (fun l => String.mk l)) stA []
              with ⟨r5, st3⟩
            rw [h5] at h
            cases r5 with
            | error e => exact absurd h (by simp)
            | ok cats =>
              dsimp only at h
              simp only [Prod.mk.injEq, Except.ok.injEq] at h
              intro k hk
              rw [← h.1] at hk
              rcases sweepLoop_keys env _ _ _ _ _ h5 k hk with h' | ⟨_, hne⟩
              · simp at h'
              · exact hne
          | null => exact absurd h (by simp)
          | bool b => exact absurd h (by simp)
          | num n => exact absurd h (by simp)
          | arr xs => exact absurd h (by simp)
          | obj gs => exact absurd h (by simp)
    · simp only [hf, Bool.not_false, if_true] at h
      rcases h2 : sweepLoop env [forced] st1 [] with ⟨r2, stA⟩
      rw [h2] at h
      cases r2 with
      | error e => exact absurd h (by simp)
      | ok cats =>
        dsimp only at h
        simp only [Prod.mk.injEq, Except.ok.injEq] at h
        intro k hk
        rw [← h.1] at hk
        rcases sweepLoop_keys env _ _ _ _ _ h2 k hk with h' | ⟨_, hne⟩
        · simp at h'
        · exact hne

/-- Witness for C10: a successful forced-catalog sweep persists the single
key `Acme`, which is non-empty. -/
theorem c10_cached_catalog_keys_nonempty_witness :
    (SchemaData.mk 7 none
        [(("Acme" : String), CatalogInfo.mk [] (Json.str ("x")) (Json.str ("x")))]
      ).catalogs.map Prod.fst = [("Acme" : String)] ∧ ("Acme" : String) ≠ "" :=
  ⟨rfl,
    c10_cached_catalog_keys_nonempty okTextEnv ("Acme") 7 initState none
      (SchemaData.mk 7 none
        [(("Acme" : String), CatalogInfo.mk [] (Json.str ("x")) (Json.str ("x")))])
      ⟨3, true, [kInitialize, kToolsCall, kToolsCall]⟩
      (some (SchemaData.mk 7 none
        [(("Acme" : String), CatalogInfo.mk [] (Json.str ("x")) (Json.str ("x")))]))
      rfl ("Acme") (by simp)⟩
